import Mathlib

/-!
Shallow embedding of the storage and streaming core of the iggy message
broker (fork under verification), together with theorems settling the
frozen claims about it.  Machine integers of the source (u32, u64) are
modelled as `Nat`, with explicit `% 2 ^ 32` at the places where the source
performs an `as u32` cast.  Fallible Rust functions returning
`Result<T, Error>` are modelled as `Except Error T`; functions that mutate
`&mut self` are modelled by explicit state passing, returning the new
state even on the error path (as the Rust borrow does).  Storage I/O is
modelled by records of abstract functions plus, where a claim speaks about
the order of writes, an explicit trace of storage operations.
-/

/-- Results of fallible operations are compared in witnesses, so `Except`
needs decidable equality. -/
instance {ε α : Type} [DecidableEq ε] [DecidableEq α] : DecidableEq (Except ε α) :=
  fun a b =>
    match a, b with
    | Except.ok x, Except.ok y =>
        if h : x = y then isTrue (by rw [h]) else isFalse (by simp [h])
    | Except.error x, Except.error y =>
        if h : x = y then isTrue (by rw [h]) else isFalse (by simp [h])
    | Except.ok _, Except.error _ => isFalse (by simp)
    | Except.error _, Except.ok _ => isFalse (by simp)

namespace Iggy

/-- Error kinds of the core (`iggy::error::Error`), restricted to the
variants the embedded operations can produce.  `StorageFailure` stands for
an arbitrary error returned by a storage backend. -/
inductive Error where
  | InvalidCommand : Error
  | TooManyPartitions : Error
  | InvalidOffset (offset : Nat) : Error
  | SegmentClosed (start_offset : Nat) (partition_id : Nat) : Error
  | StorageFailure : Error
deriving DecidableEq, Repr

/-- Server-side error kinds (`ServerError`) relevant to config validation. -/
inductive ServerError where
  | InvalidConfiguration : ServerError
  | CacheConfigValidationFailure : ServerError
deriving DecidableEq, Repr

/-- Modelled from the spec: the `Identifier` type is defined outside
`src/` (only `delete_partitions.rs` of the client crate is present).
Spec §3: an identifier is either numeric (32-bit) or string (1-255
bytes); its byte layout is a 1-byte kind tag, a 1-byte length `L`, then
`L` payload bytes; `get_size_bytes() = 2 + L`; two identifiers are equal
iff kind and payload bytes match.  Scenario S1 encodes numeric 1 as
kind=2, len=1, val=1, so the numeric kind tag is 2. -/
structure Identifier where
  kind : Nat
  value : List Nat
deriving DecidableEq, Repr

/-- Modelled from the spec: `get_size_bytes() = 2 + L` (spec §3). -/
def Identifier.get_size_bytes (i : Identifier) : Nat :=
  2 + i.value.length

/-- Modelled from the spec: byte layout kind tag, length, payload (spec §3). -/
def Identifier.as_bytes (i : Identifier) : List Nat :=
  i.kind :: i.value.length :: i.value

/-- Modelled from the spec: decoding of the tag/length/payload identifier
layout; a payload length outside 1-255 or insufficient bytes is a framing
error (`InvalidCommand`, spec §4.1). -/
def Identifier.from_bytes (b : List Nat) : Except Error Identifier :=
  match b with
  | k :: l :: rest =>
      if 1 ≤ l ∧ l ≤ 255 ∧ l ≤ rest.length then
        Except.ok ⟨k, rest.take l⟩
      else
        Except.error Error.InvalidCommand
  | _ => Except.error Error.InvalidCommand

/-- Modelled from the spec: a numeric identifier carries the 32-bit value
in minimal little-endian bytes (scenario S1 encodes the numeric value 1 as
the single payload byte 1); written with nested conditionals rather than
recursion so that it evaluates by kernel reduction. -/
def Identifier.numeric (n : Nat) : Identifier :=
  if n < 256 then ⟨2, [n]⟩
  else if n < 65536 then ⟨2, [n % 256, n / 256]⟩
  else if n < 16777216 then ⟨2, [n % 256, n / 256 % 256, n / 65536]⟩
  else ⟨2, [n % 256, n / 256 % 256, n / 65536 % 256, n / 16777216 % 256]⟩

/-- Little-endian byte encoding of a u32, as produced by `to_le_bytes`. -/
def u32_to_le_bytes (n : Nat) : List Nat :=
  [n % 256, n / 256 % 256, n / 65536 % 256, n / 16777216 % 256]

/-- Little-endian decoding of a u32, as done by `u32::from_le_bytes`. -/
def u32_from_le_bytes (b0 b1 b2 b3 : Nat) : Nat :=
  b0 + 256 * b1 + 65536 * b2 + 16777216 * b3

/-- `MAX_PARTITIONS_COUNT` from `src/iggy/src/partitions/delete_partitions.rs`. -/
def MAX_PARTITIONS_COUNT : Nat := 100000

/-- The `DeletePartitions` command payload
(`src/iggy/src/partitions/delete_partitions.rs`). -/
structure DeletePartitions where
  stream_id : Identifier
  topic_id : Identifier
  partitions_count : Nat
deriving DecidableEq, Repr

/-- `Validatable for DeletePartitions`: the count must lie in
`1..=MAX_PARTITIONS_COUNT`, otherwise `TooManyPartitions`. -/
def DeletePartitions.validate (c : DeletePartitions) : Except Error Unit :=
  if ¬ (1 ≤ c.partitions_count ∧ c.partitions_count ≤ MAX_PARTITIONS_COUNT) then
    Except.error Error.TooManyPartitions
  else
    Except.ok ()

/-- `BytesSerializable::as_bytes for DeletePartitions`: stream identifier
bytes, topic identifier bytes, then the count in little-endian. -/
def DeletePartitions.as_bytes (c : DeletePartitions) : List Nat :=
  c.stream_id.as_bytes ++ c.topic_id.as_bytes ++ u32_to_le_bytes c.partitions_count

/-- The parsing part of `DeletePartitions::from_bytes`, before validation:
length check (≥ 10 bytes), two identifiers, then four count bytes.  The
final wildcard case models the out-of-bounds slice access of the source
(fewer than 4 bytes left after the identifiers) as a framing error. -/
def DeletePartitions.parse_bytes (bytes : List Nat) :
    Except Error (Identifier × Identifier × Nat) :=
  if bytes.length < 10 then Except.error Error.InvalidCommand
  else
    match Identifier.from_bytes bytes with
    | Except.error e => Except.error e
    | Except.ok stream_id =>
        let rest := bytes.drop stream_id.get_size_bytes
        match Identifier.from_bytes rest with
        | Except.error e => Except.error e
        | Except.ok topic_id =>
            match rest.drop topic_id.get_size_bytes with
            | b0 :: b1 :: b2 :: b3 :: _ =>
                Except.ok (stream_id, topic_id, u32_from_le_bytes b0 b1 b2 b3)
            | _ => Except.error Error.InvalidCommand

/-- `BytesSerializable::from_bytes for DeletePartitions`: parse, build the
command, validate, return it. -/
def DeletePartitions.from_bytes (bytes : List Nat) : Except Error DeletePartitions :=
  match DeletePartitions.parse_bytes bytes with
  | Except.error e => Except.error e
  | Except.ok (stream_id, topic_id, partitions_count) =>
      let command : DeletePartitions := ⟨stream_id, topic_id, partitions_count⟩
      match command.validate with
      | Except.error e => Except.error e
      | Except.ok _ => Except.ok command

/-- Splits a character list at every pipe character, as
`input.split('|')` does (strings are modelled as lists of characters). -/
def splitOnPipe : List Char → List (List Char)
  | [] => [[]]
  | ch :: rest =>
      match splitOnPipe rest with
      | [] => [[ch]]
      | part :: parts =>
          if ch = '|' then [] :: part :: parts else (ch :: part) :: parts

/-- Decimal parse of a character list: all characters must be digits and
there must be at least one, as the standard integer parser requires (sign
handling omitted; no claim depends on it). -/
def decimal_digits (s : List Char) : Option Nat :=
  if s = [] then none
  else if s.all Char.isDigit then
    some (s.foldl (fun acc ch => acc * 10 + (ch.toNat - 48)) 0)
  else none

/-- `parse::<u32>()` on a field of the textual form: decimal digits whose
value fits in 32 bits; the precise error kind for a failed numeric parse
is not fixed by any claim, so `InvalidCommand` is used. -/
def parse_u32 (s : List Char) : Except Error Nat :=
  match decimal_digits s with
  | some n => if n < 4294967296 then Except.ok n else Except.error Error.InvalidCommand
  | none => Except.error Error.InvalidCommand

/-- Modelled from the spec: identifier textual parsing is defined outside
`src/`.  Spec §6: an identifier in the textual form is either a decimal
number (parsed as the numeric kind, 32-bit) or a name (string kind,
1-255 bytes); the string kind tag is taken to be 1, complementing the
numeric tag 2 of scenario S1 (no claim depends on the string tag). -/
def Identifier.from_str (s : List Char) : Except Error Identifier :=
  match decimal_digits s with
  | some n =>
      if n < 4294967296 then Except.ok (Identifier.numeric n)
      else Except.error Error.InvalidCommand
  | none =>
      if 1 ≤ s.length ∧ s.length ≤ 255 then Except.ok ⟨1, s.map Char.toNat⟩
      else Except.error Error.InvalidCommand

/-- The parsing part of `FromStr for DeletePartitions`, before validation:
exactly three pipe-separated fields, two identifiers, one u32. -/
def DeletePartitions.parse_str (input : List Char) :
    Except Error (Identifier × Identifier × Nat) :=
  match splitOnPipe input with
  | [p0, p1, p2] =>
      match Identifier.from_str p0 with
      | Except.error e => Except.error e
      | Except.ok stream_id =>
          match Identifier.from_str p1 with
          | Except.error e => Except.error e
          | Except.ok topic_id =>
              match parse_u32 p2 with
              | Except.error e => Except.error e
              | Except.ok partitions_count =>
                  Except.ok (stream_id, topic_id, partitions_count)
  | _ => Except.error Error.InvalidCommand

/-- `FromStr for DeletePartitions`: parse, build the command, validate. -/
def DeletePartitions.from_str (input : List Char) : Except Error DeletePartitions :=
  match DeletePartitions.parse_str input with
  | Except.error e => Except.error e
  | Except.ok (stream_id, topic_id, partitions_count) =>
      let command : DeletePartitions := ⟨stream_id, topic_id, partitions_count⟩
      match command.validate with
      | Except.error e => Except.error e
      | Except.ok _ => Except.ok command

/-- Validity of an identifier for the round-trip property: payload of 1 to
255 bytes (spec §3). -/
def Identifier.valid (i : Identifier) : Prop :=
  1 ≤ i.value.length ∧ i.value.length ≤ 255

instance (i : Identifier) : Decidable i.valid := by
  unfold Identifier.valid
  infer_instance

/-- A byte-index entry (`streaming::segments::index::Index`):
`{ relative_offset: u32, position: u32 }`. -/
structure Index where
  relative_offset : Nat
  position : Nat
deriving DecidableEq, Repr

/-- A time-index entry (`streaming::segments::time_index::TimeIndex`):
`{ relative_offset: u32, timestamp: u64 }`. -/
structure TimeIndex where
  relative_offset : Nat
  timestamp : Nat
deriving DecidableEq, Repr

/-- `MessagesBatch` from `src/server/src/streaming/models/messages_batch.rs`;
the packed message blob is modelled as a byte list. -/
structure MessagesBatch where
  base_offset : Nat
  length : Nat
  last_offset_delta : Nat
  messages : List Nat
deriving DecidableEq, Repr

/-- `MessagesBatch::get_size_bytes` from
`src/server/src/streaming/batching/messages_batch.rs`. -/
def MessagesBatch.get_size_bytes (b : MessagesBatch) : Nat :=
  8 + 4 + 4 + b.messages.length

/-- The mutable segment state touched by the append and persist paths.
The `Segment` struct definition itself is outside `src/`; its fields are
taken from spec §3, restricted to the ones
`src/server/src/streaming/segments/messages.rs` reads or writes, with
`unsaved_messages` holding `MessagesBatch` values as `append_messages`
pushes them (spec §3 lists the unsaved buffer as a sequence of
`MessagesBatch`). -/
structure Segment where
  start_offset : Nat
  end_offset : Nat
  current_offset : Nat
  current_size_bytes : Nat
  is_closed : Bool
  partition_id : Nat
  indexes : Option (List Index)
  time_indexes : Option (List TimeIndex)
  unsaved_messages : Option (List MessagesBatch)
deriving DecidableEq, Repr

/-- `Segment::store_index_for_batch`
(`src/server/src/streaming/segments/messages.rs`, lines 259-290): pushes
one byte-index entry at the current byte size when the byte index is
enabled; the time-index pushes are commented out in the source, so the
time-index arms change nothing.  The `as u32` cast of the relative offset
is modelled by `% 2 ^ 32`. -/
def Segment.store_index_for_batch (seg : Segment) (batch_last_offset : Nat) : Segment :=
  let relative_offset := (batch_last_offset - seg.start_offset) % 4294967296
  match seg.indexes, seg.time_indexes with
  | some indexes, some _ =>
      { seg with indexes := some (indexes ++ [⟨relative_offset, seg.current_size_bytes⟩]) }
  | some indexes, none =>
      { seg with indexes := some (indexes ++ [⟨relative_offset, seg.current_size_bytes⟩]) }
  | none, some _ => seg
  | none, none => seg

/-- `Segment::append_messages`
(`src/server/src/streaming/segments/messages.rs`, lines 181-258): rejects
a closed segment, stores one index entry for the batch, pushes the batch
onto the unsaved buffer (creating it when absent).  The per-message loop
that updated `current_offset` and `current_size_bytes` is commented out in
the source, so neither field changes.  The pair returned carries the
result and the segment state after the call (the state is returned even on
the error path, as with `&mut self`). -/
def Segment.append_messages (seg : Segment) (messages : MessagesBatch)
    (last_message_offset : Nat) : Except Error Unit × Segment :=
  if seg.is_closed then
    (Except.error (Error.SegmentClosed seg.start_offset seg.partition_id), seg)
  else
    let seg := seg.store_index_for_batch last_message_offset
    let unsaved_messages := seg.unsaved_messages.getD []
    (Except.ok (), { seg with unsaved_messages := some (unsaved_messages ++ [messages]) })

/-- One write issued to segment storage by `persist_messages`, recorded in
order. -/
inductive StorageOp where
  | saveMessages (batches : List MessagesBatch) : StorageOp
  | saveIndex (current_position : Nat) (batches : List MessagesBatch) : StorageOp
  | saveTimeIndex (batches : List MessagesBatch) : StorageOp
deriving DecidableEq, Repr

/-- Segment storage as seen by `persist_messages`: `save_messages` returns
the number of bytes written (spec §4.5); the write calls themselves are
recorded in the operation trace. -/
structure SegmentStorage where
  save_messages : Segment → List MessagesBatch → Nat

/-- Modelled from the spec: `Segment::is_full` is defined outside `src/`.
Spec §4.2: a segment is full when `current_size_bytes` reaches the
configured maximum segment size, or when the message expiry elapsed since
the segment's oldest message; elapsing of the expiry is passed in as a
boolean. -/
def Segment.is_full (seg : Segment) (max_size_bytes : Nat)
    (message_expiry_elapsed : Bool) : Bool :=
  decide (max_size_bytes ≤ seg.current_size_bytes) || message_expiry_elapsed

/-- `Segment::persist_messages`
(`src/server/src/streaming/segments/messages.rs`, lines 292-336): no-op
when the unsaved buffer is absent or empty; otherwise saves the unsaved
batches, then the index region at `current_size_bytes - saved_bytes`, then
the time-index region, and finally either closes the segment (dropping the
buffer) when it is full or clears the buffer in place.  Returns the
result, the segment state after the call, and the trace of storage writes
in order. -/
def Segment.persist_messages (seg : Segment) (storage : SegmentStorage)
    (max_size_bytes : Nat) (message_expiry_elapsed : Bool) :
    Except Error Unit × Segment × List StorageOp :=
  match seg.unsaved_messages with
  | none => (Except.ok (), seg, [])
  | some unsaved_messages =>
      if unsaved_messages.isEmpty then (Except.ok (), seg, [])
      else
        let saved_bytes := storage.save_messages seg unsaved_messages
        let current_position := seg.current_size_bytes - saved_bytes
        let ops := [StorageOp.saveMessages unsaved_messages,
                    StorageOp.saveIndex current_position unsaved_messages,
                    StorageOp.saveTimeIndex unsaved_messages]
        if seg.is_full max_size_bytes message_expiry_elapsed then
          (Except.ok (),
           { seg with end_offset := seg.current_offset,
                      is_closed := true,
                      unsaved_messages := none }, ops)
        else
          (Except.ok (), { seg with unsaved_messages := some [] }, ops)

/-- A message as the read path sees it: `get_messages` inspects only the
`offset` field of the buffered `Arc<Message>` values, so only that field
is modelled. -/
structure Message where
  offset : Nat
deriving DecidableEq, Repr

/-- `IndexRange` from `streaming::segments::index`: a start and an end
byte-index entry (`end` is a Lean keyword, hence `stop`). -/
structure IndexRange where
  start : Index
  stop : Index
deriving DecidableEq, Repr

/-- The segment state the read path
(`Segment::get_messages` and helpers) consults.  In this snapshot of the
source the read path still treats the unsaved buffer as a sequence of
messages carrying an `offset` field (`unsaved_messages[0].offset`,
`message.offset`), while the append path pushes `MessagesBatch` values;
the two paths are therefore embedded over separate state records, this one
with a message-typed buffer. -/
structure ReadSegment where
  start_offset : Nat
  current_offset : Nat
  current_size_bytes : Nat
  indexes : Option (List Index)
  unsaved_messages : Option (List Message)
deriving DecidableEq, Repr

/-- Segment storage as seen by the read path: `load_index_range (segment,
segment_start_offset, index_start_offset, index_end_offset)` and
`load_messages (segment, index_range)` (spec §4.5).  The storage handle
lives inside the segment in the source; it is passed alongside here.
Storage I/O failures propagate unchanged through the read path and are not
modelled. -/
structure ReadStorage where
  load_index_range : ReadSegment → Nat → Nat → Nat → Option IndexRange
  load_messages : ReadSegment → IndexRange → List Message

/-- `Segment::load_messages_from_unsaved_buffer`
(`src/server/src/streaming/segments/messages.rs`, lines 85-93): the
buffered messages whose offset lies inclusively between `offset` and
`end_offset`. -/
def ReadSegment.load_messages_from_unsaved_buffer (seg : ReadSegment)
    (offset end_offset : Nat) : List Message :=
  (seg.unsaved_messages.getD []).filter
    (fun message => decide (offset ≤ message.offset) && decide (message.offset ≤ end_offset))

/-- `Segment::load_messages_from_disk`
(`src/server/src/streaming/segments/messages.rs`, lines 95-160): empty on
an invalid range; with in-memory indexes present and a start entry found,
builds the index range (end position falls back to `current_size_bytes`
past the last entry) and loads from the log file; otherwise asks storage
for the index range.  The `as u32` casts of the relative offsets are
modelled by `% 2 ^ 32`. -/
def ReadSegment.load_messages_from_disk (seg : ReadSegment) (storage : ReadStorage)
    (start_offset end_offset : Nat) : List Message :=
  if start_offset > end_offset ∨ end_offset > seg.current_offset then []
  else
    match seg.indexes with
    | some indexes =>
        let relative_start_offset := start_offset - seg.start_offset
        let relative_end_offset := end_offset - seg.start_offset
        match indexes.get? relative_start_offset with
        | some start_index =>
            let start_position := start_index.position
            let end_position :=
              match indexes.get? (1 + relative_end_offset) with
              | some index => index.position
              | none => seg.current_size_bytes
            let index_range : IndexRange :=
              ⟨⟨relative_start_offset % 4294967296, start_position⟩,
               ⟨relative_end_offset % 4294967296, end_position⟩⟩
            storage.load_messages seg index_range
        | none =>
            match storage.load_index_range seg seg.start_offset start_offset end_offset with
            | none => []
            | some index_range => storage.load_messages seg index_range
    | none =>
        match storage.load_index_range seg seg.start_offset start_offset end_offset with
        | none => []
        | some index_range => storage.load_messages seg index_range

/-- `Segment::get_messages`
(`src/server/src/streaming/segments/messages.rs`, lines 22-65): empty for
`count = 0`; raises `offset` to `start_offset` when below it; caps the end
offset at `current_offset`; then reads from disk, from the unsaved buffer,
or from both, depending on where the requested end falls relative to the
first and last buffered offsets. -/
def ReadSegment.get_messages (seg : ReadSegment) (storage : ReadStorage)
    (offset count : Nat) : List Message :=
  if count = 0 then []
  else
    let offset := if offset < seg.start_offset then seg.start_offset else offset
    let end_offset :=
      if offset + (count - 1) > seg.current_offset then seg.current_offset
      else offset + (count - 1)
    match seg.unsaved_messages with
    | none => seg.load_messages_from_disk storage offset end_offset
    | some unsaved_messages =>
        match unsaved_messages with
        | [] => seg.load_messages_from_disk storage offset end_offset
        | first :: rest =>
            let first_offset := first.offset
            if end_offset < first_offset then
              seg.load_messages_from_disk storage offset end_offset
            else
              let last_offset := (rest.getLastD first).offset
              if end_offset ≤ last_offset then
                seg.load_messages_from_unsaved_buffer offset end_offset
              else
                seg.load_messages_from_disk storage offset end_offset ++
                  seg.load_messages_from_unsaved_buffer offset end_offset

/-- The resolution rule exactly as claim C2 words it (spec §4.2): the
request is resolved over the range obtained by clamping `offset` into
`[start_offset, current_offset]` and capping the end at `current_offset`,
with the source chosen by where the end falls relative to the buffered
offsets.  Written from the spec's words to be compared with
`ReadSegment.get_messages`, which is written from the source. -/
def ReadSegment.get_messages_claimed (seg : ReadSegment) (storage : ReadStorage)
    (offset count : Nat) : List Message :=
  let offset := max seg.start_offset (min offset seg.current_offset)
  let end_offset := min (offset + (count - 1)) seg.current_offset
  let buffered := seg.unsaved_messages.getD []
  match buffered.head?, buffered.getLast? with
  | some first, some last =>
      if end_offset < first.offset then
        seg.load_messages_from_disk storage offset end_offset
      else if end_offset ≤ last.offset then
        seg.load_messages_from_unsaved_buffer offset end_offset
      else
        seg.load_messages_from_disk storage offset end_offset ++
          seg.load_messages_from_unsaved_buffer offset end_offset
  | _, _ => seg.load_messages_from_disk storage offset end_offset

/-- The resolution rule of the amended claim C2: identical to
`get_messages_claimed` except that `offset` is only raised to
`start_offset`, never lowered to `current_offset`; when `offset` exceeds
`current_offset` the resolved range is empty. -/
def ReadSegment.get_messages_resolved (seg : ReadSegment) (storage : ReadStorage)
    (offset count : Nat) : List Message :=
  let offset := max seg.start_offset offset
  let end_offset := min (offset + (count - 1)) seg.current_offset
  let buffered := seg.unsaved_messages.getD []
  match buffered.head?, buffered.getLast? with
  | some first, some last =>
      if end_offset < first.offset then
        seg.load_messages_from_disk storage offset end_offset
      else if end_offset ≤ last.offset then
        seg.load_messages_from_unsaved_buffer offset end_offset
      else
        seg.load_messages_from_disk storage offset end_offset ++
          seg.load_messages_from_unsaved_buffer offset end_offset
  | _, _ => seg.load_messages_from_disk storage offset end_offset

/-- `ConsumerKind` from the client crate. -/
inductive ConsumerKind where
  | Consumer : ConsumerKind
  | ConsumerGroup : ConsumerKind
deriving DecidableEq, Repr

/-- `ConsumerOffset` from `streaming::partitions::partition` (spec §3). -/
structure ConsumerOffset where
  kind : ConsumerKind
  consumer_id : Nat
  offset : Nat
  stream_id : Nat
  topic_id : Nat
  partition_id : Nat
deriving DecidableEq, Repr

/-- `ConsumerOffset::new`. -/
def ConsumerOffset.new (kind : ConsumerKind) (consumer_id offset stream_id topic_id
    partition_id : Nat) : ConsumerOffset :=
  ⟨kind, consumer_id, offset, stream_id, topic_id, partition_id⟩

/-- `PollingConsumer`: an individual consumer or a consumer-group member;
the second component (the member or partition id) is carried but never
read by the offset store. -/
inductive PollingConsumer where
  | Consumer (consumer_id : Nat) (partition_id : Nat) : PollingConsumer
  | ConsumerGroup (group_id : Nat) (member_id : Nat) : PollingConsumer
deriving DecidableEq, Repr

/-- The map id a polling consumer is keyed under. -/
def PollingConsumer.cid : PollingConsumer → Nat
  | PollingConsumer.Consumer consumer_id _ => consumer_id
  | PollingConsumer.ConsumerGroup group_id _ => group_id

/-- A consumer-offset map (`HashMap<u32, ConsumerOffset>`), modelled as an
association list observed only through `offsetMapGet`. -/
abbrev OffsetMap := List (Nat × ConsumerOffset)

/-- `HashMap::get`. -/
def offsetMapGet (m : OffsetMap) (k : Nat) : Option ConsumerOffset :=
  (m.find? (fun entry => entry.1 == k)).map (fun entry => entry.2)

/-- `HashMap::insert`, used by the source only on a key known to be absent. -/
def offsetMapInsert (m : OffsetMap) (k : Nat) (v : ConsumerOffset) : OffsetMap :=
  m ++ [(k, v)]

/-- The in-place mutation through `HashMap::get_mut`: every entry under
key `k` takes the new value. -/
def offsetMapUpdate (m : OffsetMap) (k : Nat) (v : ConsumerOffset) : OffsetMap :=
  m.map (fun entry => if entry.1 == k then (entry.1, v) else entry)

/-- One observable step of `Partition::store_offset`, recorded in order: a
change of the in-memory map or a storage write of one consumer offset. -/
inductive OffsetStoreEvent where
  | mapChange (consumer_id : Nat) (offset : Nat) : OffsetStoreEvent
  | storageSave (consumer_offset : ConsumerOffset) : OffsetStoreEvent
deriving DecidableEq, Repr

/-- Partition storage as seen by the consumer-offset store:
`save_consumer_offset` may fail (spec §4.5). -/
structure PartitionStorage where
  save_consumer_offset : ConsumerOffset → Except Error Unit

/-- `Partition::store_offset`
(`src/server/src/streaming/partitions/consumer_offsets.rs`, lines 79-109):
when the consumer already has an entry, the entry is mutated in memory
first and the new value is then persisted (a failing write leaves the
mutated entry in place); when it is absent, a fresh record is persisted
first and inserted only on success.  Returns the result, the map after
the call, and the trace of events in order. -/
def store_offset (storage : PartitionStorage) (kind : ConsumerKind)
    (consumer_id offset stream_id topic_id partition_id : Nat)
    (consumer_offsets : OffsetMap) :
    Except Error Unit × OffsetMap × List OffsetStoreEvent :=
  match offsetMapGet consumer_offsets consumer_id with
  | some consumer_offset =>
      let updated := { consumer_offset with offset := offset }
      let consumer_offsets := offsetMapUpdate consumer_offsets consumer_id updated
      match storage.save_consumer_offset updated with
      | Except.ok _ =>
          (Except.ok (), consumer_offsets,
           [OffsetStoreEvent.mapChange consumer_id offset,
            OffsetStoreEvent.storageSave updated])
      | Except.error e =>
          (Except.error e, consumer_offsets,
           [OffsetStoreEvent.mapChange consumer_id offset,
            OffsetStoreEvent.storageSave updated])
  | none =>
      let consumer_offset :=
        ConsumerOffset.new kind consumer_id offset stream_id topic_id partition_id
      match storage.save_consumer_offset consumer_offset with
      | Except.ok _ =>
          (Except.ok (), offsetMapInsert consumer_offsets consumer_id consumer_offset,
           [OffsetStoreEvent.storageSave consumer_offset,
            OffsetStoreEvent.mapChange consumer_id offset])
      | Except.error e =>
          (Except.error e, consumer_offsets,
           [OffsetStoreEvent.storageSave consumer_offset])

/-- The partition state the consumer-offset store touches (spec §3); the
two maps are the `consumer_offsets` and `consumer_group_offsets` fields. -/
structure Partition where
  stream_id : Nat
  topic_id : Nat
  partition_id : Nat
  current_offset : Nat
  consumer_offsets : OffsetMap
  consumer_group_offsets : OffsetMap
deriving DecidableEq, Repr

/-- `Partition::get_consumer_offset`
(`src/server/src/streaming/partitions/consumer_offsets.rs`, lines 9-35):
the stored offset under the consumer's map, or 0 when absent.  The source
wraps the value in `Ok`; no error path exists, so the value is returned
directly. -/
def Partition.get_consumer_offset (p : Partition) (consumer : PollingConsumer) : Nat :=
  match consumer with
  | PollingConsumer.Consumer consumer_id _ =>
      match offsetMapGet p.consumer_offsets consumer_id with
      | some consumer_offset => consumer_offset.offset
      | none => 0
  | PollingConsumer.ConsumerGroup consumer_group_id _ =>
      match offsetMapGet p.consumer_group_offsets consumer_group_id with
      | some consumer_offset => consumer_offset.offset
      | none => 0

/-- `Partition::store_consumer_offset`
(`src/server/src/streaming/partitions/consumer_offsets.rs`, lines 37-77):
rejects an offset above `current_offset` with `InvalidOffset`, otherwise
dispatches to `store_offset` on the map matching the consumer kind.  The
partition state is returned even when the storage write fails, carrying
whatever `store_offset` left in the map. -/
def Partition.store_consumer_offset (p : Partition) (storage : PartitionStorage)
    (consumer : PollingConsumer) (offset : Nat) :
    Except Error Unit × Partition × List OffsetStoreEvent :=
  if offset > p.current_offset then
    (Except.error (Error.InvalidOffset offset), p, [])
  else
    match consumer with
    | PollingConsumer.Consumer consumer_id _ =>
        let (result, consumer_offsets, events) :=
          store_offset storage ConsumerKind.Consumer consumer_id offset
            p.stream_id p.topic_id p.partition_id p.consumer_offsets
        (result, { p with consumer_offsets := consumer_offsets }, events)
    | PollingConsumer.ConsumerGroup consumer_id _ =>
        let (result, consumer_group_offsets, events) :=
          store_offset storage ConsumerKind.ConsumerGroup consumer_id offset
            p.stream_id p.topic_id p.partition_id p.consumer_group_offsets
        (result, { p with consumer_group_offsets := consumer_group_offsets }, events)

/-- The stored entry a polling consumer resolves to, used to state which
of the two maps a claim speaks about. -/
def Partition.lookup (p : Partition) (consumer : PollingConsumer) : Option ConsumerOffset :=
  match consumer with
  | PollingConsumer.Consumer consumer_id _ => offsetMapGet p.consumer_offsets consumer_id
  | PollingConsumer.ConsumerGroup group_id _ => offsetMapGet p.consumer_group_offsets group_id

/-- The fresh record `store_offset` persists for a consumer with no stored
entry. -/
def Partition.fresh_offset (p : Partition) (consumer : PollingConsumer)
    (offset : Nat) : ConsumerOffset :=
  match consumer with
  | PollingConsumer.Consumer consumer_id _ =>
      ConsumerOffset.new ConsumerKind.Consumer consumer_id offset
        p.stream_id p.topic_id p.partition_id
  | PollingConsumer.ConsumerGroup group_id _ =>
      ConsumerOffset.new ConsumerKind.ConsumerGroup group_id offset
        p.stream_id p.topic_id p.partition_id

/-- Modelled from the spec: `segment::MAX_SIZE_BYTES` is defined outside
`src/`; the spec (§4.6) fixes only that it is an implementation-defined
upper bound that fits in a 32-bit size field; the reference value of one
gigabyte is used. -/
def segment_MAX_SIZE_BYTES : Nat := 1000 * 1000 * 1000

/-- `SegmentConfig` (`configs::system`): only the `size` field, a byte
count held as u64, reaches the validator. -/
structure SegmentConfig where
  size : Nat
deriving DecidableEq, Repr

/-- `Validatable for SegmentConfig`
(`src/server/src/configs/validators.rs`, lines 93-105): the source
compares `self.size.as_u64() as u32` — the size truncated to 32 bits,
modelled by `% 2 ^ 32` — against `segment::MAX_SIZE_BYTES` and rejects
with `InvalidConfiguration` when the truncated value is greater. -/
def SegmentConfig.validate (c : SegmentConfig) : Except ServerError Unit :=
  if c.size % 4294967296 > segment_MAX_SIZE_BYTES then
    Except.error ServerError.InvalidConfiguration
  else
    Except.ok ()

/-- An open segment about to receive its first batch, used to evaluate the
append path at a concrete input. -/
def segment_c1 : Segment :=
  ⟨0, 0, 0, 0, false, 1, some [], some [], some []⟩

/-- A five-message batch of 80 bytes of framing-plus-payload, offsets 0-4. -/
def batch_c1 : MessagesBatch :=
  ⟨0, 80, 4, [10, 20, 30, 40, 50]⟩

/-- A read-path storage whose log holds exactly one message at offset 0;
the in-memory index path computes the range, so `load_index_range` is
never consulted. -/
def storage_c2 : ReadStorage :=
  ⟨fun _ _ _ _ => none, fun _ _ => [⟨0⟩]⟩

/-- A read segment holding exactly one persisted message at offset 0 and
no unsaved buffer: `start_offset = current_offset = 0`, 12 bytes on disk,
one index entry at position 0. -/
def segment_c2 : ReadSegment :=
  ⟨0, 0, 12, some [⟨0, 0⟩], none⟩

/-- A partition storage that always fails, exercising the error path of
the consumer-offset store. -/
def storage_fail : PartitionStorage :=
  ⟨fun _ => Except.error Error.StorageFailure⟩

/-- A partition storage that always succeeds. -/
def storage_ok : PartitionStorage :=
  ⟨fun _ => Except.ok ()⟩

/-- A partition at `current_offset = 10` whose consumer 1 already has a
stored offset of 5. -/
def partition_c5 : Partition :=
  ⟨1, 1, 1, 10, [(1, ConsumerOffset.new ConsumerKind.Consumer 1 5 1 1 1)], []⟩

/-- The partition of scenario S4: `current_offset = 7`, no stored
consumer offsets yet. -/
def partition_s4 : Partition :=
  ⟨1, 1, 1, 7, [], []⟩

/-- The identity of a polling consumer for the offset store: its kind and
map id; two consumers address the same stored entry iff their keys agree. -/
def PollingConsumer.key : PollingConsumer → ConsumerKind × Nat
  | PollingConsumer.Consumer consumer_id _ => (ConsumerKind.Consumer, consumer_id)
  | PollingConsumer.ConsumerGroup group_id _ => (ConsumerKind.ConsumerGroup, group_id)

/-- An open segment whose unsaved buffer exists but is empty, for the
no-op case of `persist_messages`. -/
def seg_empty_buffer : Segment := ⟨0, 0, 4, 100, false, 1, some [⟨4, 0⟩], none, some []⟩

/-- An open segment with one unsaved batch of 100 bytes accounted in
`current_size_bytes`, for the write case of `persist_messages`. -/
def seg_c3 : Segment := ⟨0, 0, 4, 100, false, 1, some [⟨4, 0⟩], none, some [batch_c1]⟩

/-- A segment storage whose `save_messages` reports the summed encoded
size of the batches as the bytes written. -/
def storage_c3 : SegmentStorage :=
  ⟨fun _ batches => (batches.map MessagesBatch.get_size_bytes).sum⟩

/-- A closed segment, for the rejection path of `append_messages`. -/
def seg_closed : Segment := ⟨0, 9, 9, 500, true, 7, some [], none, some []⟩

/-! Helper lemmas shared by the claim theorems. -/

theorem identifier_from_bytes_of_append (i : Identifier) (rest : List Nat)
    (h : i.valid) : Identifier.from_bytes (i.as_bytes ++ rest) = Except.ok i := by
  obtain ⟨k, v⟩ := i
  obtain ⟨h1, h2⟩ := h
  simp only [Identifier.as_bytes, List.cons_append, Identifier.from_bytes]
  rw [if_pos]
  · simp [List.take_left]
  · refine ⟨h1, h2, ?_⟩
    simp

theorem identifier_drop_size (i : Identifier) (rest : List Nat) :
    (i.as_bytes ++ rest).drop i.get_size_bytes = rest := by
  obtain ⟨k, v⟩ := i
  simp only [Identifier.as_bytes, Identifier.get_size_bytes, List.cons_append]
  have h : 2 + v.length = v.length + 2 := by omega
  rw [h]
  simp [List.drop]

theorem u32_roundtrip (c : Nat) (h : c < 4294967296) :
    u32_from_le_bytes (c % 256) (c / 256 % 256) (c / 65536 % 256) (c / 16777216 % 256) = c := by
  unfold u32_from_le_bytes
  omega

theorem parse_bytes_of_as_bytes (x : DeletePartitions)
    (hs : x.stream_id.valid) (ht : x.topic_id.valid)
    (hc : x.partitions_count < 4294967296) :
    DeletePartitions.parse_bytes x.as_bytes =
      Except.ok (x.stream_id, x.topic_id, x.partitions_count) := by
  simp only [DeletePartitions.as_bytes, DeletePartitions.parse_bytes]
  rw [if_neg]
  · rw [List.append_assoc]
    rw [identifier_from_bytes_of_append x.stream_id _ hs]
    simp only []
    rw [identifier_drop_size x.stream_id _]
    rw [identifier_from_bytes_of_append x.topic_id _ ht]
    simp only []
    rw [identifier_drop_size x.topic_id _]
    simp only [u32_to_le_bytes]
    rw [u32_roundtrip x.partitions_count hc]
  · obtain ⟨hs1, _⟩ := hs
    obtain ⟨ht1, _⟩ := ht
    simp [Identifier.as_bytes, u32_to_le_bytes]
    omega

theorem offsetMapGet_insert_self (m : OffsetMap) (k : Nat) (v : ConsumerOffset)
    (h : offsetMapGet m k = none) : offsetMapGet (offsetMapInsert m k v) k = some v := by
  unfold offsetMapGet offsetMapInsert
  have hm : m.find? (fun entry => entry.1 == k) = none := by
    cases hf : m.find? (fun entry => entry.1 == k) <;>
      simp [offsetMapGet, hf] at h ⊢
  rw [List.find?_append, hm]
  simp [List.find?]

theorem offsetMapGet_insert_other (m : OffsetMap) (k k2 : Nat) (v : ConsumerOffset)
    (h : k2 ≠ k) : offsetMapGet (offsetMapInsert m k2 v) k = offsetMapGet m k := by
  unfold offsetMapGet offsetMapInsert
  rw [List.find?_append]
  have hb : (k2 == k) = false := beq_eq_false_iff_ne.mpr h
  have h2 : List.find? (fun entry => entry.1 == k) [(k2, v)] = none := by
    simp [List.find?, hb]
  rw [h2]
  simp

theorem find?_offsetMapUpdate (m : OffsetMap) (k k2 : Nat) (v : ConsumerOffset) :
    List.find? (fun entry => entry.1 == k) (offsetMapUpdate m k2 v) =
      (List.find? (fun entry => entry.1 == k) m).map
        (fun entry => if entry.1 == k2 then (entry.1, v) else entry) := by
  induction m with
  | nil => rfl
  | cons e m ih =>
    unfold offsetMapUpdate at *
    simp only [List.map_cons, List.find?]
    have hsame : ((if (e.1 == k2) = true then (e.1, v) else e).1 == k) = (e.1 == k) := by
      split <;> rfl
    rw [hsame]
    cases he : (e.1 == k) with
    | true => simp
    | false => simpa using ih

theorem offsetMapGet_update_self (m : OffsetMap) (k : Nat) (v w : ConsumerOffset)
    (h : offsetMapGet m k = some w) :
    offsetMapGet (offsetMapUpdate m k v) k = some v := by
  unfold offsetMapGet at *
  rw [find?_offsetMapUpdate]
  cases hf : m.find? (fun entry => entry.1 == k) with
  | none => simp [hf] at h
  | some e =>
    have hp := List.find?_some hf
    have he : e.1 = k := by simpa using hp
    simp [hf, he]

theorem offsetMapGet_update_other (m : OffsetMap) (k k2 : Nat) (v : ConsumerOffset)
    (h : k2 ≠ k) : offsetMapGet (offsetMapUpdate m k2 v) k = offsetMapGet m k := by
  unfold offsetMapGet
  rw [find?_offsetMapUpdate]
  cases hf : m.find? (fun entry => entry.1 == k) with
  | none => rfl
  | some e =>
    have hp := List.find?_some hf
    have he : e.1 = k := by simpa using hp
    have hne : ¬ e.1 = k2 := by omega
    simp [hne]

theorem store_offset_fst_ok (storage : PartitionStorage)
    (hσ : ∀ co, storage.save_consumer_offset co = Except.ok ())
    (kind : ConsumerKind) (cid offset sid tid pid : Nat) (m : OffsetMap) :
    (store_offset storage kind cid offset sid tid pid m).1 = Except.ok () := by
  unfold store_offset
  cases hm : offsetMapGet m cid <;> simp [hσ]

theorem store_offset_get_self (storage : PartitionStorage)
    (hσ : ∀ co, storage.save_consumer_offset co = Except.ok ())
    (kind : ConsumerKind) (cid offset sid tid pid : Nat) (m : OffsetMap) :
    (offsetMapGet (store_offset storage kind cid offset sid tid pid m).2.1 cid).map
      ConsumerOffset.offset = some offset := by
  unfold store_offset
  cases hm : offsetMapGet m cid with
  | some w =>
    simp only [hσ]
    rw [offsetMapGet_update_self m cid _ w hm]
    rfl
  | none =>
    simp only [hσ]
    rw [offsetMapGet_insert_self m cid _ hm]
    rfl

theorem store_offset_get_other (storage : PartitionStorage)
    (kind : ConsumerKind) (cid offset sid tid pid : Nat) (m : OffsetMap) (k : Nat)
    (h : cid ≠ k) :
    offsetMapGet (store_offset storage kind cid offset sid tid pid m).2.1 k =
      offsetMapGet m k := by
  unfold store_offset
  cases hm : offsetMapGet m cid with
  | some w =>
    cases hs : storage.save_consumer_offset { w with offset := offset } <;>
      simp [hs, offsetMapGet_update_other m k cid _ h]
  | none =>
    cases hs : storage.save_consumer_offset
        (ConsumerOffset.new kind cid offset sid tid pid) <;>
      simp [hs, offsetMapGet_insert_other m k cid _ h]

theorem partition_store_fst_ok (p : Partition) (storage : PartitionStorage)
    (consumer : PollingConsumer) (offset : Nat)
    (hσ : ∀ co, storage.save_consumer_offset co = Except.ok ())
    (h : offset ≤ p.current_offset) :
    (p.store_consumer_offset storage consumer offset).1 = Except.ok () := by
  unfold Partition.store_consumer_offset
  rw [if_neg (by omega)]
  cases consumer with
  | Consumer cid pid2 =>
    rcases hso : store_offset storage ConsumerKind.Consumer cid offset
        p.stream_id p.topic_id p.partition_id p.consumer_offsets with ⟨r, m2, evs⟩
    have hres := store_offset_fst_ok storage hσ ConsumerKind.Consumer cid offset
      p.stream_id p.topic_id p.partition_id p.consumer_offsets
    rw [hso] at hres
    simp [hso, hres]
  | ConsumerGroup cid pid2 =>
    rcases hso : store_offset storage ConsumerKind.ConsumerGroup cid offset
        p.stream_id p.topic_id p.partition_id p.consumer_group_offsets with ⟨r, m2, evs⟩
    have hres := store_offset_fst_ok storage hσ ConsumerKind.ConsumerGroup cid offset
      p.stream_id p.topic_id p.partition_id p.consumer_group_offsets
    rw [hso] at hres
    simp [hso, hres]

theorem partition_store_get_self (p : Partition) (storage : PartitionStorage)
    (consumer : PollingConsumer) (offset : Nat)
    (hσ : ∀ co, storage.save_consumer_offset co = Except.ok ())
    (h : offset ≤ p.current_offset) :
    (p.store_consumer_offset storage consumer offset).2.1.get_consumer_offset consumer =
      offset := by
  unfold Partition.store_consumer_offset
  rw [if_neg (by omega)]
  cases consumer with
  | Consumer cid pid2 =>
    rcases hso : store_offset storage ConsumerKind.Consumer cid offset
        p.stream_id p.topic_id p.partition_id p.consumer_offsets with ⟨r, m2, evs⟩
    have hget := store_offset_get_self storage hσ ConsumerKind.Consumer cid offset
      p.stream_id p.topic_id p.partition_id p.consumer_offsets
    rw [hso] at hget
    simp only [hso]
    unfold Partition.get_consumer_offset
    cases hg : offsetMapGet m2 cid with
    | none => rw [hg] at hget; simp at hget
    | some co2 =>
      rw [hg] at hget
      simp at hget
      simp [hg, hget]
  | ConsumerGroup cid pid2 =>
    rcases hso : store_offset storage ConsumerKind.ConsumerGroup cid offset
        p.stream_id p.topic_id p.partition_id p.consumer_group_offsets with ⟨r, m2, evs⟩
    have hget := store_offset_get_self storage hσ ConsumerKind.ConsumerGroup cid offset
      p.stream_id p.topic_id p.partition_id p.consumer_group_offsets
    rw [hso] at hget
    simp only [hso]
    unfold Partition.get_consumer_offset
    cases hg : offsetMapGet m2 cid with
    | none => rw [hg] at hget; simp at hget
    | some co2 =>
      rw [hg] at hget
      simp at hget
      simp [hg, hget]

theorem partition_store_get_other (p : Partition) (storage : PartitionStorage)
    (consumer other : PollingConsumer) (o2 : Nat)
    (hk : other.key ≠ consumer.key) :
    (p.store_consumer_offset storage other o2).2.1.get_consumer_offset consumer =
      p.get_consumer_offset consumer := by
  unfold Partition.store_consumer_offset
  by_cases ho : o2 > p.current_offset
  · rw [if_pos ho]
  · rw [if_neg ho]
    cases other with
    | Consumer ocid opid =>
      rcases hso : store_offset storage ConsumerKind.Consumer ocid o2
          p.stream_id p.topic_id p.partition_id p.consumer_offsets with ⟨r, m2, evs⟩
      simp only [hso]
      cases consumer with
      | Consumer ccid cpid =>
        have hne : ocid ≠ ccid := by
          intro heq
          exact hk (by simp [PollingConsumer.key, heq])
        have hmap := store_offset_get_other storage ConsumerKind.Consumer ocid o2
          p.stream_id p.topic_id p.partition_id p.consumer_offsets ccid hne
        rw [hso] at hmap
        unfold Partition.get_consumer_offset
        simp [hmap]
      | ConsumerGroup gcid gpid =>
        unfold Partition.get_consumer_offset
        simp
    | ConsumerGroup ocid opid =>
      rcases hso : store_offset storage ConsumerKind.ConsumerGroup ocid o2
          p.stream_id p.topic_id p.partition_id p.consumer_group_offsets with ⟨r, m2, evs⟩
      simp only [hso]
      cases consumer with
      | Consumer ccid cpid =>
        unfold Partition.get_consumer_offset
        simp
      | ConsumerGroup gcid gpid =>
        have hne : ocid ≠ gcid := by
          intro heq
          exact hk (by simp [PollingConsumer.key, heq])
        have hmap := store_offset_get_other storage ConsumerKind.ConsumerGroup ocid o2
          p.stream_id p.topic_id p.partition_id p.consumer_group_offsets gcid hne
        rw [hso] at hmap
        unfold Partition.get_consumer_offset
        simp [hmap]

/-! Claim theorems. -/

/-- C1 (code divergence, evaluated at a concrete input): `append_messages`
on a fresh open segment accepts the batch, pushes it onto the unsaved
buffer and pushes exactly one byte-index entry whose relative offset is
`last_message_offset - start_offset` and whose position is the prior
`current_size_bytes`, but — contrary to the claim — it leaves
`current_offset` unchanged (not set to `last_message_offset = 4`) and
leaves `current_size_bytes` unchanged (not increased by `batch.length`):
the updating loop is commented out in the source. -/
theorem C1_append_divergence :
    (segment_c1.append_messages batch_c1 4).1 = Except.ok () ∧
    (segment_c1.append_messages batch_c1 4).2.unsaved_messages = some [batch_c1] ∧
    (segment_c1.append_messages batch_c1 4).2.indexes =
      some [⟨4 - segment_c1.start_offset, segment_c1.current_size_bytes⟩] ∧
    (segment_c1.append_messages batch_c1 4).2.current_offset =
      segment_c1.current_offset ∧
    (segment_c1.append_messages batch_c1 4).2.current_offset ≠ 4 ∧
    (segment_c1.append_messages batch_c1 4).2.current_size_bytes =
      segment_c1.current_size_bytes ∧
    (segment_c1.append_messages batch_c1 4).2.current_size_bytes ≠
      segment_c1.current_size_bytes + batch_c1.length := by
  decide

/-- C2 (counterexample): the claim resolves `get_messages(offset, count)`
over the range obtained by clamping `offset` into
`[start_offset, current_offset]`; on a segment holding exactly the message
at offset 0 with no unsaved buffer, the request `get_messages(1, 1)`
returns the empty list, while the claimed resolution (clamping 1 down to
`current_offset = 0`) returns the message at offset 0 — the source never
lowers `offset` to `current_offset`. -/
theorem C2_counterexample :
    segment_c2.get_messages storage_c2 1 1 = [] ∧
    segment_c2.get_messages_claimed storage_c2 1 1 = [⟨0⟩] ∧
    segment_c2.get_messages storage_c2 1 1 ≠
      segment_c2.get_messages_claimed storage_c2 1 1 := by
  decide

/-- C2 (amended): for every segment, storage and request with `count > 0`,
`get_messages` resolves the request over the range obtained by raising
`offset` to `start_offset` when below it (with no upper clamp, so a start
offset beyond `current_offset` yields an empty range) and capping the end
at `current_offset`, choosing the source in the claimed order: disk when
the buffer is absent or empty or the end lies before the first buffered
offset, buffer only when the end is at most the last buffered offset, and
disk followed by buffer otherwise. -/
theorem C2_amended_resolution (seg : ReadSegment) (storage : ReadStorage)
    (offset count : Nat) (h : count ≠ 0) :
    seg.get_messages storage offset count =
      seg.get_messages_resolved storage offset count := by
  obtain ⟨so, co, cs, idx, um⟩ := seg
  have hoff : (if offset < so then so else offset) = max so offset := by
    rw [Nat.max_def]; split <;> split <;> omega
  have hend : ∀ a : Nat, (if a > co then co else a) = min a co := by
    intro a
    rw [Nat.min_def]; split <;> split <;> omega
  cases um with
  | none =>
    simp only [ReadSegment.get_messages, ReadSegment.get_messages_resolved]
    rw [if_neg h, hoff, hend]
    rfl
  | some l =>
    cases l with
    | nil =>
      simp only [ReadSegment.get_messages, ReadSegment.get_messages_resolved]
      rw [if_neg h, hoff, hend]
      simp
    | cons first rest =>
      simp only [ReadSegment.get_messages, ReadSegment.get_messages_resolved]
      rw [if_neg h, hoff, hend]
      simp only [Option.getD_some, List.head?_cons, List.getLast?_cons,
        List.getLastD_eq_getLast?]

/-- C2 (witness for the amended theorem): a concrete request with
`count = 2 > 0` on the one-message segment. -/
theorem C2_amended_witness :
    segment_c2.get_messages storage_c2 3 2 =
      segment_c2.get_messages_resolved storage_c2 3 2 :=
  C2_amended_resolution segment_c2 storage_c2 3 2 (by decide)

/-- C3: for every segment, storage, segment size limit and expiry state,
`persist_messages` is a successful no-op when the unsaved buffer is absent
or empty; otherwise it succeeds after issuing exactly, in order, the log
write of the unsaved batches, the index write at the pre-write byte
position (`current_size_bytes` minus the bytes just saved), and the
time-index write — and afterwards, if the segment is full it sets
`end_offset = current_offset`, `is_closed = true` and drops the unsaved
buffer, else it clears the unsaved buffer in place. -/
theorem C3_persist_messages_behavior (seg : Segment) (storage : SegmentStorage)
    (max_size_bytes : Nat) (message_expiry_elapsed : Bool) :
    ((seg.unsaved_messages = none ∨ seg.unsaved_messages = some []) →
      seg.persist_messages storage max_size_bytes message_expiry_elapsed =
        (Except.ok (), seg, [])) ∧
    (∀ unsaved, seg.unsaved_messages = some unsaved → unsaved ≠ [] →
      seg.persist_messages storage max_size_bytes message_expiry_elapsed =
        (Except.ok (),
         if seg.is_full max_size_bytes message_expiry_elapsed then
           { seg with end_offset := seg.current_offset,
                      is_closed := true,
                      unsaved_messages := none }
         else
           { seg with unsaved_messages := some [] },
         [StorageOp.saveMessages unsaved,
          StorageOp.saveIndex
            (seg.current_size_bytes - storage.save_messages seg unsaved) unsaved,
          StorageOp.saveTimeIndex unsaved])) := by
  constructor
  · intro h
    rcases h with h | h <;> simp [Segment.persist_messages, h]
  · intro unsaved hu hne
    simp only [Segment.persist_messages, hu]
    rw [if_neg (by simpa [List.isEmpty_iff] using hne)]
    split <;> rfl

/-- C3 (witness): the no-op case on a segment with an empty buffer, and
the write case on a segment holding one 21-byte batch out of 100 counted
bytes (index write at position 79, segment not full, buffer cleared). -/
theorem C3_witness :
    seg_empty_buffer.persist_messages storage_c3 1000 false =
      (Except.ok (), seg_empty_buffer, []) ∧
    seg_c3.persist_messages storage_c3 1000 false =
      (Except.ok (), { seg_c3 with unsaved_messages := some [] },
       [StorageOp.saveMessages [batch_c1], StorageOp.saveIndex 79 [batch_c1],
        StorageOp.saveTimeIndex [batch_c1]]) := by
  constructor
  · exact (C3_persist_messages_behavior seg_empty_buffer storage_c3 1000 false).1 (Or.inr rfl)
  · have h := (C3_persist_messages_behavior seg_c3 storage_c3 1000 false).2 [batch_c1]
      rfl (by decide)
    rw [h]
    decide

/-- C4: with a storage whose consumer-offset write always succeeds, for
every partition, consumer and offset: the store succeeds exactly when the
offset is at most `current_offset`; above it the call fails with
`InvalidOffset(offset)` and changes nothing; after a successful store the
consumer reads back exactly the stored offset, and keeps reading it after
stores addressed to any other consumer; a consumer with no stored entry
reads offset 0. -/
theorem C4_consumer_offset_contract (p : Partition) (storage : PartitionStorage)
    (consumer : PollingConsumer) (offset : Nat)
    (hσ : ∀ co, storage.save_consumer_offset co = Except.ok ()) :
    ((p.store_consumer_offset storage consumer offset).1 = Except.ok () ↔
      offset ≤ p.current_offset) ∧
    (p.current_offset < offset →
      p.store_consumer_offset storage consumer offset =
        (Except.error (Error.InvalidOffset offset), p, [])) ∧
    (offset ≤ p.current_offset →
      (p.store_consumer_offset storage consumer offset).2.1.get_consumer_offset consumer =
        offset) ∧
    (offset ≤ p.current_offset → ∀ other o2, other.key ≠ consumer.key →
      (((p.store_consumer_offset storage consumer offset).2.1).store_consumer_offset
          storage other o2).2.1.get_consumer_offset consumer = offset) ∧
    (p.lookup consumer = none → p.get_consumer_offset consumer = 0) := by
  have herr : p.current_offset < offset →
      p.store_consumer_offset storage consumer offset =
        (Except.error (Error.InvalidOffset offset), p, []) := by
    intro hgt
    unfold Partition.store_consumer_offset
    rw [if_pos (by omega)]
  refine ⟨?_, herr, ?_, ?_, ?_⟩
  · constructor
    · intro hok
      by_contra hgt
      rw [herr (by omega)] at hok
      simp at hok
    · intro hle
      exact partition_store_fst_ok p storage consumer offset hσ hle
  · intro hle
    exact partition_store_get_self p storage consumer offset hσ hle
  · intro hle other o2 hk
    rw [partition_store_get_other _ storage consumer other o2 hk]
    exact partition_store_get_self p storage consumer offset hσ hle
  · intro hl
    cases consumer with
    | Consumer cid pid2 =>
      simp only [Partition.lookup] at hl
      simp only [Partition.get_consumer_offset]
      simp [hl]
    | ConsumerGroup cid pid2 =>
      simp only [Partition.lookup] at hl
      simp only [Partition.get_consumer_offset]
      simp [hl]

/-- C4 (witness, scenario S4): with `current_offset = 7`, storing offset 8
for consumer 1 fails with `InvalidOffset(8)` and changes nothing; storing
offset 7 succeeds and reads back 7; consumer 2 reads 0. -/
theorem C4_witness :
    (partition_s4.store_consumer_offset storage_ok (PollingConsumer.Consumer 1 0) 8 =
      (Except.error (Error.InvalidOffset 8), partition_s4, [])) ∧
    ((partition_s4.store_consumer_offset storage_ok
        (PollingConsumer.Consumer 1 0) 7).2.1.get_consumer_offset
        (PollingConsumer.Consumer 1 0) = 7) ∧
    partition_s4.get_consumer_offset (PollingConsumer.Consumer 2 0) = 0 :=
  ⟨(C4_consumer_offset_contract partition_s4 storage_ok (PollingConsumer.Consumer 1 0) 8
      (fun _ => rfl)).2.1 (by decide),
   (C4_consumer_offset_contract partition_s4 storage_ok (PollingConsumer.Consumer 1 0) 7
      (fun _ => rfl)).2.2.1 (by decide),
   (C4_consumer_offset_contract partition_s4 storage_ok (PollingConsumer.Consumer 2 0) 0
      (fun _ => rfl)).2.2.2.2 (by decide)⟩

/-- C5 (counterexample): the claim says the storage write precedes the
in-memory map change also for updates, so a failing write leaves the map
unchanged; on a partition whose consumer 1 already holds offset 5, storing
offset 3 through a failing storage surfaces the error but the recorded
event order is map change before storage write, and the map no longer
equals the original. -/
theorem C5_counterexample :
    (partition_c5.store_consumer_offset storage_fail (PollingConsumer.Consumer 1 0) 3).1 =
      Except.error Error.StorageFailure ∧
    (partition_c5.store_consumer_offset storage_fail
        (PollingConsumer.Consumer 1 0) 3).2.1.consumer_offsets ≠
      partition_c5.consumer_offsets ∧
    (partition_c5.store_consumer_offset storage_fail (PollingConsumer.Consumer 1 0) 3).2.2 =
      [OffsetStoreEvent.mapChange 1 3,
       OffsetStoreEvent.storageSave (ConsumerOffset.new ConsumerKind.Consumer 1 3 1 1 1)] := by
  decide

/-- C5 (amended): for every store that passes offset validation: on the
first store of a consumer the storage write precedes the insert, so a
failing write surfaces the error and leaves the partition unchanged; on a
store replacing an existing entry the in-memory entry is set to the new
offset before the storage write, so the error is surfaced but the map
retains the new value. -/
theorem C5_amended_ordering (storage : PartitionStorage) (p : Partition)
    (consumer : PollingConsumer) (offset : Nat) (h : offset ≤ p.current_offset) :
    (p.lookup consumer = none →
      (storage.save_consumer_offset (p.fresh_offset consumer offset) = Except.ok () →
        (p.store_consumer_offset storage consumer offset).1 = Except.ok () ∧
        (p.store_consumer_offset storage consumer offset).2.2 =
          [OffsetStoreEvent.storageSave (p.fresh_offset consumer offset),
           OffsetStoreEvent.mapChange consumer.cid offset] ∧
        (p.store_consumer_offset storage consumer offset).2.1.lookup consumer =
          some (p.fresh_offset consumer offset)) ∧
      (∀ e, storage.save_consumer_offset (p.fresh_offset consumer offset) = Except.error e →
        p.store_consumer_offset storage consumer offset =
          (Except.error e, p,
           [OffsetStoreEvent.storageSave (p.fresh_offset consumer offset)]))) ∧
    (∀ co, p.lookup consumer = some co →
      (p.store_consumer_offset storage consumer offset).1 =
        storage.save_consumer_offset { co with offset := offset } ∧
      (p.store_consumer_offset storage consumer offset).2.2 =
        [OffsetStoreEvent.mapChange consumer.cid offset,
         OffsetStoreEvent.storageSave { co with offset := offset }] ∧
      (p.store_consumer_offset storage consumer offset).2.1.lookup consumer =
        some { co with offset := offset }) := by
  cases consumer with
  | Consumer cid pid2 =>
    simp only [Partition.store_consumer_offset, Partition.lookup, Partition.fresh_offset,
      PollingConsumer.cid, store_offset]
    rw [if_neg (by omega)]
    constructor
    · intro hl
      simp only [hl]
      constructor
      · intro hs
        simp only [hs]
        refine ⟨trivial, trivial, ?_⟩
        simp [Partition.lookup, offsetMapGet_insert_self p.consumer_offsets cid _ hl]
      · intro e hs
        simp only [hs]
    · intro co hl
      simp only [hl]
      cases hs : storage.save_consumer_offset { co with offset := offset } with
      | ok u =>
        simp only [hs]
        refine ⟨trivial, trivial, ?_⟩
        simp [Partition.lookup, offsetMapGet_update_self p.consumer_offsets cid _ co hl]
      | error e =>
        simp only [hs]
        refine ⟨trivial, trivial, ?_⟩
        simp [Partition.lookup, offsetMapGet_update_self p.consumer_offsets cid _ co hl]
  | ConsumerGroup cid pid2 =>
    simp only [Partition.store_consumer_offset, Partition.lookup, Partition.fresh_offset,
      PollingConsumer.cid, store_offset]
    rw [if_neg (by omega)]
    constructor
    · intro hl
      simp only [hl]
      constructor
      · intro hs
        simp only [hs]
        refine ⟨trivial, trivial, ?_⟩
        simp [Partition.lookup, offsetMapGet_insert_self p.consumer_group_offsets cid _ hl]
      · intro e hs
        simp only [hs]
    · intro co hl
      simp only [hl]
      cases hs : storage.save_consumer_offset { co with offset := offset } with
      | ok u =>
        simp only [hs]
        refine ⟨trivial, trivial, ?_⟩
        simp [Partition.lookup, offsetMapGet_update_self p.consumer_group_offsets cid _ co hl]
      | error e =>
        simp only [hs]
        refine ⟨trivial, trivial, ?_⟩
        simp [Partition.lookup, offsetMapGet_update_self p.consumer_group_offsets cid _ co hl]

/-- C5 (witness for the amended theorem): the failing update on the
concrete partition records the map change before the storage write and
leaves the new offset 3 in the map. -/
theorem C5_witness :
    (partition_c5.store_consumer_offset storage_fail (PollingConsumer.Consumer 1 0) 3).2.2 =
      [OffsetStoreEvent.mapChange 1 3,
       OffsetStoreEvent.storageSave
         { ConsumerOffset.new ConsumerKind.Consumer 1 5 1 1 1 with offset := 3 }] ∧
    (partition_c5.store_consumer_offset storage_fail
        (PollingConsumer.Consumer 1 0) 3).2.1.lookup (PollingConsumer.Consumer 1 0) =
      some { ConsumerOffset.new ConsumerKind.Consumer 1 5 1 1 1 with offset := 3 } := by
  have h := (C5_amended_ordering storage_fail partition_c5 (PollingConsumer.Consumer 1 0) 3
    (by decide)).2 (ConsumerOffset.new ConsumerKind.Consumer 1 5 1 1 1) (by decide)
  exact ⟨h.2.1, h.2.2⟩

/-- C6: for every closed segment, `append_messages` returns
`SegmentClosed` carrying the segment's start offset and partition id and
leaves the segment state unchanged. -/
theorem C6_closed_segment_rejects_append (seg : Segment) (messages : MessagesBatch)
    (last_message_offset : Nat) (h : seg.is_closed = true) :
    seg.append_messages messages last_message_offset =
      (Except.error (Error.SegmentClosed seg.start_offset seg.partition_id), seg) := by
  unfold Segment.append_messages
  rw [h]
  simp

/-- C6 (witness): appending to a concrete closed segment. -/
theorem C6_witness :
    seg_closed.append_messages batch_c1 10 =
      (Except.error (Error.SegmentClosed seg_closed.start_offset seg_closed.partition_id),
       seg_closed) :=
  C6_closed_segment_rejects_append seg_closed batch_c1 10 rfl

/-- C7: for every `DeletePartitions` value with valid identifiers and a
count in `[1, 100000]`, `from_bytes (as_bytes x) = Ok x`; and the bytes
encoding stream id numeric 1, topic id numeric 2 and little-endian count 3
decode to exactly that value. -/
theorem C7_delete_partitions_bytes_roundtrip (x : DeletePartitions)
    (hs : x.stream_id.valid) (ht : x.topic_id.valid)
    (hc : 1 ≤ x.partitions_count ∧ x.partitions_count ≤ MAX_PARTITIONS_COUNT) :
    DeletePartitions.from_bytes x.as_bytes = Except.ok x ∧
    DeletePartitions.from_bytes [2, 1, 1, 2, 1, 2, 3, 0, 0, 0] =
      Except.ok ⟨Identifier.numeric 1, Identifier.numeric 2, 3⟩ := by
  constructor
  · have hlt : x.partitions_count < 4294967296 := by
      unfold MAX_PARTITIONS_COUNT at hc
      omega
    simp only [DeletePartitions.from_bytes, parse_bytes_of_as_bytes x hs ht hlt]
    simp only [DeletePartitions.validate]
    rw [if_neg (not_not_intro hc)]
  · decide

/-- C7 (witness): the round trip at the S1 value
`{stream_id: 1, topic_id: 2, partitions_count: 3}`. -/
theorem C7_witness :
    DeletePartitions.from_bytes
        (DeletePartitions.as_bytes ⟨Identifier.numeric 1, Identifier.numeric 2, 3⟩) =
      Except.ok ⟨Identifier.numeric 1, Identifier.numeric 2, 3⟩ :=
  (C7_delete_partitions_bytes_roundtrip ⟨Identifier.numeric 1, Identifier.numeric 2, 3⟩
    (by decide) (by decide) (by decide)).1

/-- C8: on every input whose identifiers and count field parse, both
`from_bytes` and `from_str` return `TooManyPartitions` exactly when the
decoded count lies outside `[1, 100000]`; in particular counts 0 and
100001 are rejected with `TooManyPartitions` on both paths. -/
theorem C8_too_many_partitions (bytes : List Nat) (input : List Char)
    (s t s2 t2 : Identifier) (c c2 : Nat)
    (h1 : DeletePartitions.parse_bytes bytes = Except.ok (s, t, c))
    (h2 : DeletePartitions.parse_str input = Except.ok (s2, t2, c2)) :
    (DeletePartitions.from_bytes bytes = Except.error Error.TooManyPartitions ↔
      ¬ (1 ≤ c ∧ c ≤ MAX_PARTITIONS_COUNT)) ∧
    (DeletePartitions.from_str input = Except.error Error.TooManyPartitions ↔
      ¬ (1 ≤ c2 ∧ c2 ≤ MAX_PARTITIONS_COUNT)) ∧
    DeletePartitions.from_bytes [2, 1, 1, 2, 1, 2, 0, 0, 0, 0] =
      Except.error Error.TooManyPartitions ∧
    DeletePartitions.from_bytes [2, 1, 1, 2, 1, 2, 161, 134, 1, 0] =
      Except.error Error.TooManyPartitions ∧
    DeletePartitions.from_str ("1|2|0".data) = Except.error Error.TooManyPartitions ∧
    DeletePartitions.from_str ("1|2|100001".data) = Except.error Error.TooManyPartitions := by
  refine ⟨?_, ?_, by decide, by decide, by decide, by decide⟩
  · simp only [DeletePartitions.from_bytes, h1]
    simp only [DeletePartitions.validate]
    by_cases hr : 1 ≤ c ∧ c ≤ MAX_PARTITIONS_COUNT
    · rw [if_neg (not_not_intro hr)]
      simp [hr]
    · rw [if_pos hr]
      simp [hr]
  · simp only [DeletePartitions.from_str, h2]
    simp only [DeletePartitions.validate]
    by_cases hr : 1 ≤ c2 ∧ c2 ≤ MAX_PARTITIONS_COUNT
    · rw [if_neg (not_not_intro hr)]
      simp [hr]
    · rw [if_pos hr]
      simp [hr]

/-- C8 (witness): on the in-range S1 input, `from_bytes` does not return
`TooManyPartitions`. -/
theorem C8_witness :
    DeletePartitions.from_bytes [2, 1, 1, 2, 1, 2, 3, 0, 0, 0] =
        Except.error Error.TooManyPartitions ↔
      ¬ (1 ≤ 3 ∧ 3 ≤ MAX_PARTITIONS_COUNT) :=
  (C8_too_many_partitions [2, 1, 1, 2, 1, 2, 3, 0, 0, 0] ("1|2|3".data)
    (Identifier.numeric 1) (Identifier.numeric 2) (Identifier.numeric 1)
    (Identifier.numeric 2) 3 3 (by decide) (by decide)).1

/-- C9 (code divergence, evaluated at the failing input): the segment
config validator truncates the u64 size to 32 bits before comparing with
`segment::MAX_SIZE_BYTES`, so the configured size `2 ^ 32` — which
exceeds the maximum — passes validation instead of failing with
`InvalidConfiguration`. -/
theorem C9_truncating_size_check :
    SegmentConfig.validate ⟨4294967296⟩ = Except.ok () ∧
    4294967296 > segment_MAX_SIZE_BYTES := by
  decide

/-- C10: for every segment state, storage and offset, `get_messages` with
`count = 0` returns the empty list — uniformly in the buffer contents and
the storage, so neither is consulted. -/
theorem C10_zero_count_reads_nothing (seg : ReadSegment) (storage : ReadStorage)
    (offset : Nat) : seg.get_messages storage offset 0 = [] := by
  rfl

end Iggy
